import Mathlib

/-!
Verification of the Instagram-mirroring Discord bot (`bot.py`).

The development shallowly embeds the program:

* the link matcher `INSTAGRAM_REGEX.search` becomes the backtracking
  matcher `matchHere` / `findLink` over lists of characters, together
  with an independent grammar predicate `LinkConforms` describing the
  strings the regular expression accepts;
* the size gate `safe_send_file` becomes a pure function from the
  artifact and the outcome of the underlying `channel.send` call;
* the event handler `on_message` becomes a pure function from an
  oracle environment (`Env`) recording the outcome of every external
  platform call it can make, to a record (`RunResult`) of its
  externally observable effects.  Exceptions are values of `Exc`;
  Python `try/except` blocks become matches on those values, and the
  `with tempfile.TemporaryDirectory()` block is embedded with its
  try/finally semantics (cleanup on every exit path).
-/

namespace InstaMirror

/-- A Python exception, as observed by the handler's `except` clauses:
`ValueError` (raised by `safe_send_file` for oversized files),
`discord.Forbidden` (permission refusal on delete), or any other
exception.  The payload is the exception's string rendering. -/
inductive Exc where
  | valueError (msg : String)
  | forbidden  (msg : String)
  | other      (msg : String)
deriving Repr, DecidableEq

/-- The string rendering `str(exc)` interpolated into failure notices. -/
def Exc.message : Exc → String
  | .valueError m => m
  | .forbidden m => m
  | .other m => m

/-- Outcome of one external call: normal return or a raised exception. -/
inductive Res (α : Type) where
  | ok  (val : α)
  | err (e : Exc)
deriving Repr, DecidableEq

def Res.isOk {α : Type} : Res α → Bool
  | .ok _ => true
  | .err _ => false

/-- The downloaded media file: its name and its byte size
(`file_path.stat().st_size`). -/
structure Artifact where
  name : String
  size : Nat
deriving Repr, DecidableEq

/- ------------------------------------------------------------------ -/
/- Link matcher: INSTAGRAM_REGEX. The pattern is, in order: scheme
   http with optional s, then ://, optional www., the literal
   instagram.com/, an alternation of reel, p, tv, stories, a slash,
   and one or more characters from the class consisting of the ASCII
   letters, digits, underscore, hyphen, slash, question mark, equals,
   ampersand, percent and dot; compiled with re.IGNORECASE and used
   via INSTAGRAM_REGEX.search.                                         -/
/- ------------------------------------------------------------------ -/

/-- The character class of the pattern: ASCII letters, digits, and the
punctuation underscore, hyphen, slash, question mark, equals,
ampersand, percent, dot. -/
def isClassChar (c : Char) : Bool :=
  c.isAlpha || c.isDigit || c == '_' || c == '-' || c == '/' ||
    c == '?' || c == '=' || c == '&' || c == '%' || c == '.'

/-- The literal fragments of the pattern, as (lowercase) character
lists: `http`, `s`, `://`, `www.`, `instagram.com/`, the four path
types, and the slash before the path. -/
def httpL : List Char := "http".data

def schemeSL : List Char := "s".data

def sepL : List Char := "://".data

def wwwL : List Char := "www.".data

def domainL : List Char := "instagram.com/".data

def reelL : List Char := "reel".data

def ptypeL : List Char := "p".data

def tvL : List Char := "tv".data

def storiesL : List Char := "stories".data

def slashL : List Char := "/".data

/-- Match a literal (given lowercase) case-insensitively against the
front of the input, returning the remainder (`re.IGNORECASE`). -/
def stripCI : List Char → List Char → Option (List Char)
  | [], cs => some cs
  | _ :: _, [] => none
  | l :: ls, c :: cs => if c.toLower = l then stripCI ls cs else none

/-- The one-or-more class repetition at the end of the pattern:
greedily take class characters; fail on zero.  Returns the number of
characters consumed. -/
def classPlus (cs : List Char) : Option Nat :=
  let t := cs.takeWhile isClassChar
  if t.isEmpty then none else some t.length

/-- A mandatory literal followed by continuation `k`; returns total
characters consumed. -/
def litTry (lit : List Char) (k : List Char → Option Nat) (cs : List Char) :
    Option Nat :=
  match stripCI lit cs with
  | some r =>
    match k r with
    | some n => some (lit.length + n)
    | none => none
  | none => none

/-- An optional literal (`s?`, `(?:www\.)?`) with backtracking: prefer
consuming the literal, fall back to the continuation alone. -/
def optTry (lit : List Char) (k : List Char → Option Nat) (cs : List Char) :
    Option Nat :=
  match stripCI lit cs with
  | some r =>
    match k r with
    | some n => some (lit.length + n)
    | none => k cs
  | none => k cs

/-- The slash after the path-type segment, then the one-or-more class
characters. -/
def linkTail (cs : List Char) : Option Nat :=
  litTry slashL classPlus cs

/-- The alternation of `reel`, `p`, `tv`, `stories` followed by
`linkTail`, alternatives tried in the pattern's order with full
backtracking. -/
def segAlt (cs : List Char) : Option Nat :=
  match litTry reelL linkTail cs with
  | some n => some n
  | none =>
    match litTry ptypeL linkTail cs with
    | some n => some n
    | none =>
      match litTry tvL linkTail cs with
      | some n => some n
      | none => litTry storiesL linkTail cs

/-- Attempt to match the whole pattern at the current position;
returns the length of the match. -/
def matchHere (cs : List Char) : Option Nat :=
  litTry httpL
    (optTry schemeSL
      (litTry sepL
        (optTry wwwL
          (litTry domainL segAlt)))) cs

/-- Embedding of `re.search`: try every start position left to right;
returns the start index and length of the first match. -/
def findAux : Nat → List Char → Option (Nat × Nat)
  | i, [] => (matchHere []).map (fun n => (i, n))
  | i, c :: t =>
    match matchHere (c :: t) with
    | some n => some (i, n)
    | none => findAux (i + 1) t

/-- Embedding of `INSTAGRAM_REGEX.search(text)` followed by
`match.group(1)` (group 1 is the whole pattern): the first matching
substring, if any. -/
def findLink (s : String) : Option String :=
  (findAux 0 s.data).map (fun p => String.mk ((s.data.drop p.1).take p.2))

/-- Holds when `p` spells the (lowercase) literal `lit` up to case. -/
def LowEq (lit p : List Char) : Prop := p.map Char.toLower = lit

/-- The target URL grammar, stated independently of the matcher: scheme
`http`/`https`, `://`, optional `www.`, the `instagram.com/` domain, one
of the path-type segments `reel`/`p`/`tv`/`stories`, a slash, then one
or more URL path characters — all literals case-insensitive. -/
def LinkConforms (m : List Char) : Prop :=
  ∃ h s c w d g sl rest,
    m = h ++ s ++ c ++ w ++ d ++ g ++ sl ++ rest ∧
    LowEq httpL h ∧
    (s = [] ∨ LowEq schemeSL s) ∧
    LowEq sepL c ∧
    (w = [] ∨ LowEq wwwL w) ∧
    LowEq domainL d ∧
    (LowEq reelL g ∨ LowEq ptypeL g ∨ LowEq tvL g ∨ LowEq storiesL g) ∧
    LowEq slashL sl ∧
    rest ≠ [] ∧ rest.all isClassChar = true

/- ------------------------------------------------------------------ -/
/- Media fetcher: download_media                                       -/
/- ------------------------------------------------------------------ -/

/-- Oracle for one `yt_dlp.YoutubeDL` run: the outcome of
`extract_info` (an exception, `None`, or an info whose
`prepare_filename` is the given string), whether that reported path
exists on disk, and the files matching `media.*` in the destination
folder. -/
structure YtdlpRun where
  extractInfo : Res (Option String)
  reportedPathExists : Bool
  stemMatches : List String
deriving Repr, DecidableEq

/-- Embedding of `download_media`: propagate extraction exceptions,
turn a `None` info into a `RuntimeError`, use the reported filename if
it exists, otherwise fall back to the first `media.*` file, and raise
`FileNotFoundError` when neither is present. -/
def download_media (url : String) (run : YtdlpRun) : Res String :=
  match run.extractInfo with
  | .err e => .err e
  | .ok none => .err (.other "yt-dlp failed to extract info")
  | .ok (some filename) =>
    if run.reportedPathExists then .ok filename
    else
      match run.stemMatches with
      | m :: _ => .ok m
      | [] => .err (.other ("Downloaded file not found for " ++ url))

/- ------------------------------------------------------------------ -/
/- Delivery gate: safe_send_file                                       -/
/- ------------------------------------------------------------------ -/

/-- The byte ceiling `max_bytes = MAX_UPLOAD_MB * 1024 * 1024`. -/
def MAX_BYTES (maxMB : Nat) : Nat := maxMB * 1024 * 1024

/-- The `ValueError` raised for an oversized file. -/
def tooLargeError (maxMB : Nat) (name : String) (size : Nat) : Exc :=
  .valueError ("File " ++ name ++ " is " ++ toString size ++
    " bytes, exceeds " ++ toString maxMB ++ " MB limit.")

/-- Embedding of `safe_send_file`: raise `ValueError` when
`filesize > max_bytes`, otherwise perform the `channel.send` call,
whose outcome is the oracle `sendR`. -/
def safe_send_file (maxMB : Nat) (art : Artifact) (sendR : Res Unit) :
    Res Unit :=
  if MAX_BYTES maxMB < art.size then
    .err (tooLargeError maxMB art.name art.size)
  else sendR

/- ------------------------------------------------------------------ -/
/- Conversation orchestrator: on_message                               -/
/- ------------------------------------------------------------------ -/

/-- Outcomes of every external platform call `on_message` can make, in
source order.  A field is consulted only if the corresponding call site
is reached. -/
structure Env where
  /-- line 109: `channel.send("🔎 Downloading…")` creating the ack. -/
  ackSend : Res Unit
  /-- line 117: `run_in_executor(download_media, url, tpath)`;
  on success the downloaded artifact. -/
  fetch : Res Artifact
  /-- line 83: the `channel.send(file=…)` inside `safe_send_file`. -/
  fileSend : Res Unit
  /-- line 127: the too-large fallback `channel.send`. -/
  rejectSend : Res Unit
  /-- line 133: `ack.delete()` on the rejection path. -/
  ackDeleteReject : Res Unit
  /-- line 138: `message.delete()` of the triggering message. -/
  origDelete : Res Unit
  /-- line 141: the permission-request `channel.send`. -/
  permSend : Res Unit
  /-- line 148: `ack.delete()` on the success path. -/
  ackDeleteDone : Res Unit
  /-- line 156: `ack.edit(content=…)` in the failure handler. -/
  ackEdit : Res Unit
  /-- line 160: the failure-notice `channel.send` when no ack exists. -/
  failSend : Res Unit
deriving Repr, DecidableEq

/-- Final state of the acknowledgment message. -/
inductive AckState where
  | noAck
  | inProgress
  | deleted
  | edited (content : String)
deriving Repr, DecidableEq

/-- Externally observable effects of one `on_message` invocation. -/
structure RunResult where
  /-- the ack `channel.send` succeeded, so `ack` is not `None`. -/
  ackCreated : Bool := false
  /-- the `download_media` executor call was made. -/
  fetchAttempted : Bool := false
  /-- the attachment `channel.send(file=…)` call was made. -/
  sendAttempted : Bool := false
  /-- the attachment send returned without an exception. -/
  sendSucceeded : Bool := false
  /-- Holds when `message.delete()` was called on the triggering message. -/
  origDeleteAttempted : Bool := false
  /-- the triggering message's deletion succeeded. -/
  origDeleted : Bool := false
  /-- texts passed to `channel.send` calls other than the ack and the
  attachment, in call order (recorded whether or not the call raised). -/
  sends : List String := []
  /-- final state of the acknowledgment message. -/
  ackState : AckState := .noAck
  /-- an `ack.delete()` call was made. -/
  ackDeleteAttempted : Bool := false
  /-- text passed to `ack.edit`, if that call was made. -/
  ackEditText : Option String := none
  /-- the scoped temporary directory was created. -/
  tmpCreated : Bool := false
  /-- the scoped temporary directory was removed. -/
  tmpCleaned : Bool := false
  /-- exception propagating out of the handler, if any. -/
  escaped : Option Exc := none
deriving Repr, DecidableEq

/-- line 109: `"🔎 Downloading Instagram media from the link..."`. -/
def ackText : String := "🔎 Downloading Instagram media from the link..."

/-- line 127-130: the too-large fallback message (ends with the URL). -/
def rejectText (maxMB : Nat) (url : String) : String :=
  ("⚠️ Downloaded file is larger than " ++ toString maxMB ++
    " MB; I cannot upload it directly. You can download it manually here: ")
    ++ url

/-- line 141: the permission-request message. -/
def permText : String :=
  "⚠️ I don't have permission to delete messages. Please give me Manage Messages permission."

/-- line 156: the ack edit content (ends with `str(exc)`). -/
def failEditText (e : Exc) : String :=
  "❌ Failed to download or upload: " ++ e.message

/-- line 160: the failure notice when no ack exists (ends with
`str(exc)`). -/
def failSendText (e : Exc) : String :=
  "❌ Failed to handle Instagram link: " ++ e.message

/-- lines 152-160: the outer `except Exception as exc` handler.  With
an ack, try to edit it to the failure notice, swallowing edit errors;
without one, send a failure notice — that send is NOT wrapped, so its
exception propagates out of the handler. -/
def handleFailure (env : Env) (r : RunResult) (e : Exc) : RunResult :=
  if r.ackCreated then
    match env.ackEdit with
    | .ok _ => { r with ackEditText := some (failEditText e),
                        ackState := .edited (failEditText e) }
    | .err _ => { r with ackEditText := some (failEditText e) }
  else
    match env.failSend with
    | .ok _ => { r with sends := r.sends ++ [failSendText e] }
    | .err e2 => { r with sends := r.sends ++ [failSendText e],
                          escaped := some e2 }

/-- lines 145-150: best-effort ack deletion on the success path
(`try: await ack.delete() except Exception: pass`). -/
def ackCleanup (env : Env) (r : RunResult) : RunResult :=
  if r.ackCreated then
    match env.ackDeleteDone with
    | .ok _ => { r with ackDeleteAttempted := true, ackState := .deleted }
    | .err _ => { r with ackDeleteAttempted := true }
  else r

/-- lines 136-150: after a successful upload, delete the original
message (permission refusal posts a request, other errors are logged
and swallowed), then delete the ack. -/
def afterSend (env : Env) (r : RunResult) : RunResult :=
  let r1 := { r with origDeleteAttempted := true }
  match env.origDelete with
  | .ok _ => ackCleanup env { r1 with origDeleted := true }
  | .err (.forbidden _) =>
    let r2 := { r1 with sends := r1.sends ++ [permText] }
    match env.permSend with
    | .ok _ => ackCleanup env r2
    | .err e => handleFailure env r2 e
  | .err _ => ackCleanup env r1

/-- lines 123-134: the `except ValueError` rejection branch — post the
fallback message with the original URL, delete the ack if present, keep
the triggering message, and return. -/
def rejectBranch (maxMB : Nat) (env : Env) (url : String) (r : RunResult) :
    RunResult :=
  let r1 := { r with sends := r.sends ++ [rejectText maxMB url] }
  match env.rejectSend with
  | .err e => handleFailure env r1 e
  | .ok _ =>
    if r1.ackCreated then
      match env.ackDeleteReject with
      | .ok _ => { r1 with ackDeleteAttempted := true, ackState := .deleted }
      | .err e => handleFailure env { r1 with ackDeleteAttempted := true } e
    else r1

/-- lines 116-160: the body of the outer `try`, with its exceptions
routed to `handleFailure`. -/
def processBody (maxMB : Nat) (env : Env) (url : String) (r : RunResult) :
    RunResult :=
  let r1 := { r with fetchAttempted := true }
  match env.fetch with
  | .err e => handleFailure env r1 e
  | .ok art =>
    let r2 := { r1 with sendAttempted := decide (art.size ≤ MAX_BYTES maxMB) }
    match safe_send_file maxMB art env.fileSend with
    | .err (.valueError _) => rejectBranch maxMB env url r2
    | .err e => handleFailure env r2 e
    | .ok _ => afterSend env { r2 with sendSucceeded := true }

/-- Embedding of the `on_message` handler: ignore the bot's own
messages, search for an Instagram link, post a best-effort ack, then
run the body inside the temporary-directory scope, whose cleanup runs
on every exit path. -/
def on_message (maxMB : Nat) (env : Env) (authorIsBot : Bool)
    (content : String) : RunResult :=
  if authorIsBot then {} else
  match findLink content with
  | none => {}
  | some url =>
    let ack := env.ackSend.isOk
    let r0 : RunResult :=
      { ackCreated := ack,
        ackState := if ack then .inProgress else .noAck,
        tmpCreated := true }
    let r1 := processBody maxMB env url r0
    { r1 with tmpCleaned := true }

/-- Oracle environment for concrete witnesses: every platform call
succeeds and the fetched artifact is 5 MiB. -/
def envAllOk : Env :=
  { ackSend := .ok (), fetch := .ok ⟨"media.mp4", 5 * 1024 * 1024⟩,
    fileSend := .ok (), rejectSend := .ok (), ackDeleteReject := .ok (),
    origDelete := .ok (), permSend := .ok (), ackDeleteDone := .ok (),
    ackEdit := .ok (), failSend := .ok () }

/-- Like `envAllOk` but the artifact is 20 MiB (size-rejection path). -/
def envBig : Env :=
  { envAllOk with fetch := .ok ⟨"media.mp4", 20 * 1024 * 1024⟩ }

/-- Like `envAllOk` but the fetch raises an exception. -/
def envFetchFail : Env := { envAllOk with fetch := .err (.other "boom") }

/-- Like `envAllOk` but deleting the original message is refused with
the platform's forbidden error. -/
def envForbidden : Env :=
  { envAllOk with origDelete := .err (.forbidden "Missing Permissions") }

/-- Acknowledgment creation fails, the fetch raises, and the
failure-notice send of line 160 raises as well. -/
def envEscape : Env :=
  { envAllOk with
    ackSend := .err (.other "netdown0"),
    fetch := .err (.other "boom"),
    failSend := .err (.other "netdown2") }

/-- Everything succeeds except deleting the acknowledgment on the
success path (line 148). -/
def envAckStuck : Env :=
  { envAllOk with ackDeleteDone := .err (.other "netdown3") }

/- ------------------------------------------------------------------ -/
/- Theorems                                                            -/
/- ------------------------------------------------------------------ -/

theorem lowEq_length {lit p : List Char} (h : LowEq lit p) :
    p.length = lit.length := by
  simpa using congrArg List.length h

theorem lowEq_nil {p : List Char} (h : LowEq [] p) : p = [] := by
  simpa [LowEq] using h

theorem lowEq_cons {l : Char} {ls p : List Char} (h : LowEq (l :: ls) p) :
    ∃ c q, p = c :: q ∧ c.toLower = l ∧ LowEq ls q := by
  cases p with
  | nil => simp [LowEq] at h
  | cons c q =>
    simp only [LowEq, List.map_cons, List.cons.injEq] at h
    exact ⟨c, q, rfl, h.1, h.2⟩

theorem stripCI_of_lowEq {lit : List Char} :
    ∀ {p : List Char}, LowEq lit p → ∀ r, stripCI lit (p ++ r) = some r := by
  induction lit with
  | nil =>
    intro p hp r
    rw [lowEq_nil hp]
    rfl
  | cons l ls ih =>
    intro p hp r
    obtain ⟨c, q, rfl, hc, hq⟩ := lowEq_cons hp
    simpa [stripCI, hc] using ih hq r

theorem exists_of_stripCI {lit : List Char} :
    ∀ {cs r : List Char}, stripCI lit cs = some r →
      ∃ p, cs = p ++ r ∧ LowEq lit p := by
  induction lit with
  | nil =>
    intro cs r h
    simp only [stripCI, Option.some.injEq] at h
    exact ⟨[], by simp [h], by simp [LowEq]⟩
  | cons l ls ih =>
    intro cs r h
    cases cs with
    | nil => simp [stripCI] at h
    | cons c cs' =>
      by_cases hc : c.toLower = l
      · rw [stripCI, if_pos hc] at h
        obtain ⟨p', rfl, hp'⟩ := ih h
        rw [LowEq] at hp'
        exact ⟨c :: p', rfl, by simp [LowEq, hc, hp']⟩
      · rw [stripCI, if_neg hc] at h
        exact absurd h (by simp)

theorem take_append_len {α : Type} (a : List α) (n : Nat) (b : List α) :
    (a ++ b).take (a.length + n) = a ++ b.take n := by
  induction a with
  | nil => simp
  | cons x xs ih =>
    simp only [List.cons_append, List.length_cons, Nat.succ_add,
      List.take_succ_cons, ih]

theorem takeWhile_append_all {α : Type} {p : α → Bool} :
    ∀ {rest : List α}, rest.all p = true →
      ∀ t, (rest ++ t).takeWhile p = rest ++ t.takeWhile p := by
  intro rest
  induction rest with
  | nil => intro _ t; simp
  | cons x xs ih =>
    intro h t
    simp only [List.all_cons, Bool.and_eq_true] at h
    simp [List.takeWhile_cons_of_pos h.1, ih h.2 t]

theorem take_takeWhile_length {α : Type} (p : α → Bool) (cs : List α) :
    cs.take (cs.takeWhile p).length = cs.takeWhile p := by
  induction cs with
  | nil => simp
  | cons x xs ih =>
    by_cases hx : p x
    · simp [List.takeWhile_cons_of_pos hx, ih]
    · simp [List.takeWhile_cons_of_neg hx]

theorem all_takeWhile_self {α : Type} (p : α → Bool) (cs : List α) :
    (cs.takeWhile p).all p = true := by
  induction cs with
  | nil => simp
  | cons x xs ih =>
    by_cases hx : p x
    · simp [List.takeWhile_cons_of_pos hx, hx, ih]
    · simp [List.takeWhile_cons_of_neg hx]

theorem litTry_some {lit : List Char} {k : List Char → Option Nat}
    {cs : List Char} {n : Nat} (h : litTry lit k cs = some n) :
    ∃ p r n', cs = p ++ r ∧ LowEq lit p ∧ k r = some n' ∧
      n = p.length + n' := by
  rw [litTry] at h
  cases hs : stripCI lit cs with
  | none => simp [hs] at h
  | some r =>
    cases hk : k r with
    | none => simp [hs, hk] at h
    | some n' =>
      simp only [hs, hk, Option.some.injEq] at h
      obtain ⟨p, rfl, hp⟩ := exists_of_stripCI hs
      exact ⟨p, r, n', rfl, hp, hk, by rw [← h, lowEq_length hp]⟩

theorem litTry_isSome_of {lit : List Char} {k : List Char → Option Nat}
    {p r : List Char} (hl : LowEq lit p) (hk : (k r).isSome = true) :
    (litTry lit k (p ++ r)).isSome = true := by
  rw [litTry, stripCI_of_lowEq hl r]
  cases hk2 : k r with
  | none => rw [hk2] at hk; simp at hk
  | some n => simp [hk2]

theorem optTry_some {lit : List Char} {k : List Char → Option Nat}
    {cs : List Char} {n : Nat} (h : optTry lit k cs = some n) :
    ∃ p r n', cs = p ++ r ∧ (p = [] ∨ LowEq lit p) ∧ k r = some n' ∧
      n = p.length + n' := by
  rw [optTry] at h
  cases hs : stripCI lit cs with
  | none =>
    simp only [hs] at h
    exact ⟨[], cs, n, rfl, Or.inl rfl, h, by simp⟩
  | some r =>
    cases hk : k r with
    | none =>
      simp only [hs, hk] at h
      exact ⟨[], cs, n, rfl, Or.inl rfl, h, by simp⟩
    | some n' =>
      simp only [hs, hk, Option.some.injEq] at h
      obtain ⟨p, rfl, hp⟩ := exists_of_stripCI hs
      exact ⟨p, r, n', rfl, Or.inr hp, hk, by rw [← h, lowEq_length hp]⟩

theorem optTry_isSome_of_lit {lit : List Char} {k : List Char → Option Nat}
    {p r : List Char} (hl : LowEq lit p) (hk : (k r).isSome = true) :
    (optTry lit k (p ++ r)).isSome = true := by
  rw [optTry, stripCI_of_lowEq hl r]
  cases hk2 : k r with
  | none => rw [hk2] at hk; simp at hk
  | some n => simp [hk2]

theorem optTry_isSome_of_cont {lit : List Char} {k : List Char → Option Nat}
    {cs : List Char} (hk : (k cs).isSome = true) :
    (optTry lit k cs).isSome = true := by
  rw [optTry]
  cases hs : stripCI lit cs with
  | none => simp only [hs]; exact hk
  | some r =>
    cases hk2 : k r with
    | none => simp only [hs, hk2]; exact hk
    | some n => simp [hs, hk2]

theorem segAlt_some {cs : List Char} {n : Nat} (h : segAlt cs = some n) :
    litTry reelL linkTail cs = some n ∨
    litTry ptypeL linkTail cs = some n ∨
    litTry tvL linkTail cs = some n ∨
    litTry storiesL linkTail cs = some n := by
  rw [segAlt] at h
  cases h1 : litTry reelL linkTail cs with
  | some m =>
    simp only [h1, Option.some.injEq] at h
    exact Or.inl (by rw [h])
  | none =>
    simp only [h1] at h
    cases h2 : litTry ptypeL linkTail cs with
    | some m =>
      simp only [h2, Option.some.injEq] at h
      exact Or.inr (Or.inl (by rw [h]))
    | none =>
      simp only [h2] at h
      cases h3 : litTry tvL linkTail cs with
      | some m =>
        simp only [h3, Option.some.injEq] at h
        exact Or.inr (Or.inr (Or.inl (by rw [h])))
      | none =>
        simp only [h3] at h
        exact Or.inr (Or.inr (Or.inr h))

theorem segAlt_isSome_of {cs : List Char}
    (h : (litTry reelL linkTail cs).isSome = true ∨
      (litTry ptypeL linkTail cs).isSome = true ∨
      (litTry tvL linkTail cs).isSome = true ∨
      (litTry storiesL linkTail cs).isSome = true) :
    (segAlt cs).isSome = true := by
  rw [segAlt]
  cases h1 : litTry reelL linkTail cs with
  | some m => simp
  | none =>
    cases h2 : litTry ptypeL linkTail cs with
    | some m => simp
    | none =>
      cases h3 : litTry tvL linkTail cs with
      | some m => simp
      | none =>
        show (litTry storiesL linkTail cs).isSome = true
        rcases h with h | h | h | h
        · rw [h1] at h; simp at h
        · rw [h2] at h; simp at h
        · rw [h3] at h; simp at h
        · exact h

theorem classPlus_some {cs : List Char} {n : Nat}
    (h : classPlus cs = some n) :
    n = (cs.takeWhile isClassChar).length ∧
      cs.take n = cs.takeWhile isClassChar ∧
      cs.take n ≠ [] ∧ (cs.take n).all isClassChar = true := by
  rw [classPlus] at h
  by_cases he : (cs.takeWhile isClassChar).isEmpty = true
  · simp only [he, if_pos] at h
    exact absurd h (by simp)
  · simp only [if_neg he] at h
    simp only [Option.some.injEq] at h
    subst h
    refine ⟨rfl, take_takeWhile_length _ _, ?_, ?_⟩
    · rw [take_takeWhile_length]
      intro hnil
      rw [hnil] at he
      simp at he
    · rw [take_takeWhile_length]
      exact all_takeWhile_self _ _

theorem classPlus_isSome {rest : List Char} (h1 : rest ≠ [])
    (h2 : rest.all isClassChar = true) (t : List Char) :
    (classPlus (rest ++ t)).isSome = true := by
  rw [classPlus]
  rw [takeWhile_append_all h2 t]
  cases rest with
  | nil => exact absurd rfl h1
  | cons x xs => simp

theorem linkTail_decomp {r : List Char} {n : Nat} (h : linkTail r = some n) :
    ∃ sl rest, r.take n = sl ++ rest ∧ LowEq slashL sl ∧ rest ≠ [] ∧
      rest.all isClassChar = true := by
  rw [linkTail] at h
  obtain ⟨sl, r7, n7, rfl, hsl, hcp, rfl⟩ := litTry_some h
  obtain ⟨hn7, htake, hne, hall⟩ := classPlus_some hcp
  exact ⟨sl, r7.take n7, take_append_len sl n7 r7, hsl, hne, hall⟩

theorem seg_decomp {r : List Char} {n : Nat} {seg : List Char}
    (h : litTry seg linkTail r = some n) :
    ∃ g sl rest, r.take n = g ++ sl ++ rest ∧ LowEq seg g ∧
      LowEq slashL sl ∧ rest ≠ [] ∧ rest.all isClassChar = true := by
  obtain ⟨g, r6, n6, rfl, hg, hlt, rfl⟩ := litTry_some h
  obtain ⟨sl, rest, htake, hsl, hne, hall⟩ := linkTail_decomp hlt
  refine ⟨g, sl, rest, ?_, hg, hsl, hne, hall⟩
  rw [take_append_len g n6 r6, htake]
  simp [List.append_assoc]

theorem conforms_of_matchHere {cs : List Char} {n : Nat}
    (h : matchHere cs = some n) : LinkConforms (cs.take n) := by
  rw [matchHere] at h
  obtain ⟨p1, r1, n1, rfl, h1, hk1, rfl⟩ := litTry_some h
  obtain ⟨p2, r2, n2, rfl, h2, hk2, rfl⟩ := optTry_some hk1
  obtain ⟨p3, r3, n3, rfl, h3, hk3, rfl⟩ := litTry_some hk2
  obtain ⟨p4, r4, n4, rfl, h4, hk4, rfl⟩ := optTry_some hk3
  obtain ⟨p5, r5, n5, rfl, h5, hk5, rfl⟩ := litTry_some hk4
  have hseg : ∃ g sl rest, r5.take n5 = g ++ sl ++ rest ∧
      (LowEq reelL g ∨ LowEq ptypeL g ∨ LowEq tvL g ∨ LowEq storiesL g) ∧
      LowEq slashL sl ∧ rest ≠ [] ∧ rest.all isClassChar = true := by
    rcases segAlt_some hk5 with hs | hs | hs | hs
    · obtain ⟨g, sl, rest, ht, hg, hrest⟩ := seg_decomp hs
      exact ⟨g, sl, rest, ht, Or.inl hg, hrest⟩
    · obtain ⟨g, sl, rest, ht, hg, hrest⟩ := seg_decomp hs
      exact ⟨g, sl, rest, ht, Or.inr (Or.inl hg), hrest⟩
    · obtain ⟨g, sl, rest, ht, hg, hrest⟩ := seg_decomp hs
      exact ⟨g, sl, rest, ht, Or.inr (Or.inr (Or.inl hg)), hrest⟩
    · obtain ⟨g, sl, rest, ht, hg, hrest⟩ := seg_decomp hs
      exact ⟨g, sl, rest, ht, Or.inr (Or.inr (Or.inr hg)), hrest⟩
  obtain ⟨g, sl, rest, ht, hg, hsl, hne, hall⟩ := hseg
  refine ⟨p1, p2, p3, p4, p5, g, sl, rest, ?_, h1, h2, h3, h4, h5, hg,
    hsl, hne, hall⟩
  rw [take_append_len, take_append_len, take_append_len, take_append_len,
    take_append_len, ht]
  simp [List.append_assoc]

theorem linkTail_isSome_of {sl rest : List Char} (hsl : LowEq slashL sl)
    (hne : rest ≠ []) (hall : rest.all isClassChar = true)
    (tail : List Char) :
    (linkTail (sl ++ (rest ++ tail))).isSome = true := by
  rw [linkTail]
  exact litTry_isSome_of hsl (classPlus_isSome hne hall tail)

theorem segAlt_isSome_of_parts {g sl rest tail : List Char}
    (hg : LowEq reelL g ∨ LowEq ptypeL g ∨ LowEq tvL g ∨ LowEq storiesL g)
    (hsl : LowEq slashL sl) (hne : rest ≠ [])
    (hall : rest.all isClassChar = true) :
    (segAlt (g ++ (sl ++ (rest ++ tail)))).isSome = true := by
  have hlt := linkTail_isSome_of hsl hne hall tail
  rcases hg with hg | hg | hg | hg
  · exact segAlt_isSome_of (Or.inl (litTry_isSome_of hg hlt))
  · exact segAlt_isSome_of (Or.inr (Or.inl (litTry_isSome_of hg hlt)))
  · exact segAlt_isSome_of (Or.inr (Or.inr (Or.inl (litTry_isSome_of hg hlt))))
  · exact segAlt_isSome_of (Or.inr (Or.inr (Or.inr (litTry_isSome_of hg hlt))))

theorem matchHere_isSome_of_conforms {m : List Char} (tail : List Char)
    (hc : LinkConforms m) : (matchHere (m ++ tail)).isSome = true := by
  obtain ⟨p1, p2, p3, p4, p5, g, sl, rest, rfl, h1, h2, h3, h4, h5, hg,
    hsl, hne, hall⟩ := hc
  rw [matchHere]
  have e : (p1 ++ p2 ++ p3 ++ p4 ++ p5 ++ g ++ sl ++ rest) ++ tail
      = p1 ++ (p2 ++ (p3 ++ (p4 ++ (p5 ++ (g ++ (sl ++ (rest ++ tail))))))) := by
    simp [List.append_assoc]
  rw [e]
  apply litTry_isSome_of h1
  have step5 : (litTry domainL segAlt
      (p5 ++ (g ++ (sl ++ (rest ++ tail))))).isSome = true :=
    litTry_isSome_of h5 (segAlt_isSome_of_parts hg hsl hne hall)
  have step4 : (optTry wwwL (litTry domainL segAlt)
      (p4 ++ (p5 ++ (g ++ (sl ++ (rest ++ tail)))))).isSome = true := by
    rcases h4 with rfl | h4
    · rw [List.nil_append]
      exact optTry_isSome_of_cont step5
    · exact optTry_isSome_of_lit h4 step5
  have step3 : (litTry sepL (optTry wwwL (litTry domainL segAlt))
      (p3 ++ (p4 ++ (p5 ++ (g ++ (sl ++ (rest ++ tail))))))).isSome = true :=
    litTry_isSome_of h3 step4
  rcases h2 with rfl | h2
  · rw [List.nil_append]
    exact optTry_isSome_of_cont step3
  · exact optTry_isSome_of_lit h2 step3

theorem matchHere_nil : matchHere [] = none := rfl

theorem findAux_isSome {cs : List Char} :
    ∀ {i k : Nat}, (matchHere (cs.drop k)).isSome = true →
      (findAux i cs).isSome = true := by
  induction cs with
  | nil =>
    intro i k h
    rw [List.drop_nil, matchHere_nil] at h
    simp at h
  | cons c t ih =>
    intro i k h
    rw [findAux]
    cases hm : matchHere (c :: t) with
    | some n => simp
    | none =>
      simp only []
      cases k with
      | zero => rw [List.drop_zero, hm] at h; simp at h
      | succ k' =>
        rw [List.drop_succ_cons] at h
        exact ih h

theorem findAux_spec {cs : List Char} :
    ∀ {i j n : Nat}, findAux i cs = some (j, n) →
      ∃ k, j = i + k ∧ matchHere (cs.drop k) = some n ∧
        ∀ k', k' < k → matchHere (cs.drop k') = none := by
  induction cs with
  | nil =>
    intro i j n h
    rw [findAux, matchHere_nil] at h
    simp at h
  | cons c t ih =>
    intro i j n h
    rw [findAux] at h
    cases hm : matchHere (c :: t) with
    | some m =>
      simp only [hm, Option.some.injEq, Prod.mk.injEq] at h
      refine ⟨0, by omega, ?_, by omega⟩
      rw [List.drop_zero, hm, h.2]
    | none =>
      simp only [hm] at h
      obtain ⟨k, hj, hk, hmin⟩ := ih h
      refine ⟨k + 1, by omega, by rwa [List.drop_succ_cons], ?_⟩
      intro k' hk'
      cases k' with
      | zero => rw [List.drop_zero]; exact hm
      | succ k'' =>
        rw [List.drop_succ_cons]
        exact hmin k'' (by omega)

/-- C5: the link matcher finds a match exactly when the text contains a
substring conforming to the target URL grammar (`LinkConforms`); the
returned match itself conforms and starts at the leftmost position at
which any conforming substring starts (so the first link wins when
several are present); and on the text
`check this out https://instagram.com/reel/ABC123 cool` the extracted
match is exactly `https://instagram.com/reel/ABC123`.  The matcher is a
total function, so it cannot throw on malformed input. -/
theorem C5_link_matcher :
    (∀ s : String, (findLink s).isSome = true ↔
      ∃ i n, LinkConforms ((s.data.drop i).take n)) ∧
    (∀ s m, findLink s = some m →
      ∃ i n, m.data = (s.data.drop i).take n ∧ LinkConforms m.data ∧
        ∀ j, j < i → ¬ ∃ n', LinkConforms ((s.data.drop j).take n')) ∧
    findLink "check this out https://instagram.com/reel/ABC123 cool" =
      some "https://instagram.com/reel/ABC123" := by
  refine ⟨?_, ?_, by decide⟩
  · intro s
    constructor
    · intro hs
      rw [findLink] at hs
      cases hf : findAux 0 s.data with
      | none => rw [hf] at hs; simp at hs
      | some jn =>
        obtain ⟨k, hj, hk, hmin⟩ := @findAux_spec s.data 0 jn.1 jn.2
          (by rw [hf])
        exact ⟨k, jn.2, conforms_of_matchHere hk⟩
    · rintro ⟨i, n, hc⟩
      have hm : (matchHere (s.data.drop i)).isSome = true := by
        have := matchHere_isSome_of_conforms ((s.data.drop i).drop n) hc
        rwa [List.take_append_drop] at this
      cases hmm : matchHere (s.data.drop i) with
      | none => rw [hmm] at hm; simp at hm
      | some n' =>
        have hfa := @findAux_isSome s.data 0 i (by rw [hmm]; rfl)
        rw [findLink]
        cases hfa2 : findAux 0 s.data with
        | none => rw [hfa2] at hfa; simp at hfa
        | some jn => simp
  · intro s m hm
    rw [findLink] at hm
    cases hf : findAux 0 s.data with
    | none => rw [hf] at hm; simp at hm
    | some jn =>
      rw [hf] at hm
      simp only [Option.map_some', Option.some.injEq] at hm
      obtain ⟨k, hj, hk, hmin⟩ := @findAux_spec s.data 0 jn.1 jn.2
        (by rw [hf])
      have hj0 : jn.1 = k := by omega
      refine ⟨jn.1, jn.2, ?_, ?_, ?_⟩
      · rw [← hm]
      · rw [← hm, hj0]
        exact conforms_of_matchHere hk
      · intro j hjlt ⟨n', hc⟩
        have hmj : (matchHere (s.data.drop j)).isSome = true := by
          have := matchHere_isSome_of_conforms ((s.data.drop j).drop n') hc
          rwa [List.take_append_drop] at this
        rw [hmin j (by omega)] at hmj
        simp at hmj

/-- Witness for C5: the concrete scenario instantiating the
first-match part of the theorem. -/
theorem C5_link_matcher_witness :
    ∃ i n,
      ("https://instagram.com/reel/ABC123" : String).data =
        (("check this out https://instagram.com/reel/ABC123 cool" :
          String).data.drop i).take n ∧
      LinkConforms ("https://instagram.com/reel/ABC123" : String).data ∧
      ∀ j, j < i → ¬ ∃ n', LinkConforms
        ((("check this out https://instagram.com/reel/ABC123 cool" :
          String).data.drop j).take n') :=
  C5_link_matcher.2.1 _ _ (by decide)

/-- C1: for every message (in particular every matched one) and every
outcome of the external calls, deletion of the original triggering
message is attempted exactly when the attachment send succeeded, and
the original message is actually deleted only if the send succeeded:
no deletion attempt on fetch failure, size rejection, or delivery
failure, and a deletion attempt always follows a successful send. -/
theorem C1_delete_iff_send (maxMB : Nat) (env : Env) (authorIsBot : Bool)
    (content : String) :
    (on_message maxMB env authorIsBot content).origDeleteAttempted =
      (on_message maxMB env authorIsBot content).sendSucceeded ∧
    ((on_message maxMB env authorIsBot content).origDeleted = true →
      (on_message maxMB env authorIsBot content).sendSucceeded = true) := by
  cases authorIsBot with
  | true => simp [on_message]
  | false =>
    cases hf : findLink content with
    | none => simp [on_message, hf]
    | some url =>
      simp only [on_message, hf, processBody, rejectBranch, afterSend,
        ackCleanup, handleFailure, safe_send_file]
      repeat' split
      all_goals simp_all

/-- Witness for C1 at a concrete matched message where every call
succeeds: deletion is attempted, and the send did succeed. -/
theorem C1_delete_iff_send_witness :
    ((on_message 8 envAllOk false
        "https://instagram.com/p/A").origDeleteAttempted =
      (on_message 8 envAllOk false "https://instagram.com/p/A").sendSucceeded)
    ∧ (on_message 8 envAllOk false
        "https://instagram.com/p/A").sendSucceeded = true :=
  ⟨(C1_delete_iff_send 8 envAllOk false "https://instagram.com/p/A").1,
   (C1_delete_iff_send 8 envAllOk false "https://instagram.com/p/A").2
     (by decide)⟩

/-- C4: the delivery gate deems an artifact of size `s` eligible (and
then performs exactly the underlying send) if and only if
`s ≤ MAX_BYTES maxMB`; the boundary `s = MAX_BYTES maxMB` is eligible;
for larger artifacts it raises the too-large `ValueError` and the
result does not depend on the send oracle at all (the send is never
attempted). -/
theorem C4_size_gate (maxMB : Nat) (art : Artifact) (sendR : Res Unit) :
    (art.size ≤ MAX_BYTES maxMB → safe_send_file maxMB art sendR = sendR) ∧
    (MAX_BYTES maxMB < art.size →
      safe_send_file maxMB art sendR =
        .err (tooLargeError maxMB art.name art.size) ∧
      ∀ sendR', safe_send_file maxMB art sendR =
        safe_send_file maxMB art sendR') := by
  constructor
  · intro hle
    rw [safe_send_file, if_neg (by omega)]
  · intro hlt
    refine ⟨by rw [safe_send_file, if_pos hlt], fun sendR' => ?_⟩
    rw [safe_send_file, if_pos hlt, safe_send_file, if_pos hlt]

/-- Witness for C4: with an 8 MB ceiling, an artifact of exactly
8 * 1024 * 1024 bytes goes through to the send, while a 20 MiB one is
rejected with the too-large error. -/
theorem C4_size_gate_witness :
    safe_send_file 8 ⟨"media.mp4", 8 * 1024 * 1024⟩ (.ok ()) = .ok () ∧
    safe_send_file 8 ⟨"media.mp4", 20 * 1024 * 1024⟩ (.ok ()) =
      .err (tooLargeError 8 "media.mp4" (20 * 1024 * 1024)) :=
  ⟨(C4_size_gate 8 ⟨"media.mp4", 8 * 1024 * 1024⟩ (.ok ())).1 (by decide),
   ((C4_size_gate 8 ⟨"media.mp4", 20 * 1024 * 1024⟩ (.ok ())).2
     (by decide)).1⟩

/-- C8: the scoped temporary directory is removed exactly when it was
created — on every outcome branch of the handler — and it is created
whenever a matched message (not from the bot itself) is processed.  So
no downloaded artifact outlives the handling of its triggering
message. -/
theorem C8_tmp_cleanup (maxMB : Nat) (env : Env) (authorIsBot : Bool)
    (content : String) :
    ((on_message maxMB env authorIsBot content).tmpCleaned =
      (on_message maxMB env authorIsBot content).tmpCreated) ∧
    ((findLink content).isSome = true → authorIsBot = false →
      (on_message maxMB env authorIsBot content).tmpCreated = true) := by
  cases authorIsBot with
  | true => simp [on_message]
  | false =>
    cases hf : findLink content with
    | none => simp [on_message, hf]
    | some url =>
      simp only [on_message, hf, processBody, rejectBranch, afterSend,
        ackCleanup, handleFailure, safe_send_file]
      repeat' split
      all_goals simp_all

/-- Witness for C8 at a concrete matched message. -/
theorem C8_tmp_cleanup_witness :
    ((on_message 8 envAllOk false "https://instagram.com/p/A").tmpCleaned =
      (on_message 8 envAllOk false "https://instagram.com/p/A").tmpCreated)
    ∧ (on_message 8 envAllOk false
        "https://instagram.com/p/A").tmpCreated = true :=
  ⟨(C8_tmp_cleanup 8 envAllOk false "https://instagram.com/p/A").1,
   (C8_tmp_cleanup 8 envAllOk false "https://instagram.com/p/A").2
     (by decide) rfl⟩

/-- C10: a message authored by the bot itself is ignored outright: the
handler returns before link matching, for any content (even one
containing a matching link) — no acknowledgment, no temporary
directory, no fetch, no send, no edit, no delete. -/
theorem C10_ignores_own_messages (maxMB : Nat) (env : Env)
    (content : String) :
    on_message maxMB env true content =
      { ackCreated := false, fetchAttempted := false, sendAttempted := false,
        sendSucceeded := false, origDeleteAttempted := false,
        origDeleted := false, sends := [], ackState := .noAck,
        ackDeleteAttempted := false, ackEditText := none,
        tmpCreated := false, tmpCleaned := false, escaped := none } := rfl

/-- C2 counterexample: the claim "no exception raised during the
processing of one message propagates out of the handler" is false.
When the acknowledgment could not be created, the fetch fails, and the
failure-notice `channel.send` of line 160 itself raises (it is not
wrapped in any `try`), that exception escapes the handler. -/
theorem C2_escape_counterexample :
    (on_message 8 envEscape false "https://instagram.com/p/A").escaped =
      some (.other "netdown2") ∧
    (on_message 8 envEscape false "https://instagram.com/p/A").escaped ≠
      none := by
  decide

/-- C2 (amended): every failure arising during the processing of one
matched message is caught inside the handler and converted into a
user-visible chat message or edit, EXCEPT that when the acknowledgment
does not exist, a failure of the line-160 failure-notice send itself
propagates out of the handler.  Thus no exception escapes provided the
acknowledgment was created, or the failure-notice send succeeds. -/
theorem C2_failures_confined (maxMB : Nat) (env : Env) (authorIsBot : Bool)
    (content : String)
    (hsafe : env.ackSend.isOk = true ∨ env.failSend.isOk = true) :
    (on_message maxMB env authorIsBot content).escaped = none := by
  cases authorIsBot with
  | true => simp [on_message]
  | false =>
    cases hf : findLink content with
    | none => simp [on_message, hf]
    | some url =>
      simp only [on_message, hf, processBody, rejectBranch, afterSend,
        ackCleanup, handleFailure, safe_send_file]
      repeat' split
      all_goals simp_all [Res.isOk]

/-- Witness for the amended C2 at a concrete input on the failure path
with a live acknowledgment. -/
theorem C2_failures_confined_witness :
    (on_message 8 envFetchFail false
      "https://instagram.com/p/A").escaped = none :=
  C2_failures_confined 8 envFetchFail false "https://instagram.com/p/A"
    (Or.inl (by decide))

/-- C3 counterexample: the claim "the acknowledgment is never left
showing the initial in-progress text" is false.  On the success path
the `ack.delete()` of line 148 is wrapped in `try/except: pass`, so if
that delete call itself fails, processing completes with the
acknowledgment still in its in-progress state. -/
theorem C3_ack_stuck_counterexample :
    (on_message 8 envAckStuck false
      "https://instagram.com/p/A").ackCreated = true ∧
    (on_message 8 envAckStuck false
      "https://instagram.com/p/A").ackState = .inProgress := by
  decide

/-- C3 (amended): for every matched message whose acknowledgment was
created, PROVIDED the platform delete/edit calls on the acknowledgment
themselves succeed when invoked, processing always ends with the
acknowledgment either deleted (success and size-rejection paths) or
edited to the terminal failure notice (failure paths) — never left in
the in-progress state. -/
theorem C3_ack_terminal (maxMB : Nat) (env : Env) (content url : String)
    (hm : findLink content = some url)
    (hack : env.ackSend.isOk = true)
    (h1 : env.ackDeleteReject.isOk = true)
    (h2 : env.ackDeleteDone.isOk = true)
    (h3 : env.ackEdit.isOk = true) :
    (on_message maxMB env false content).ackState = .deleted ∨
    ∃ e, (on_message maxMB env false content).ackState =
      .edited (failEditText e) := by
  simp only [on_message, hm, processBody, rejectBranch, afterSend,
    ackCleanup, handleFailure, safe_send_file]
  repeat' split
  all_goals simp_all [Res.isOk]

/-- Witness for the amended C3 at a concrete all-success input. -/
theorem C3_ack_terminal_witness :
    (on_message 8 envAllOk false "https://instagram.com/p/A").ackState =
      .deleted ∨
    ∃ e, (on_message 8 envAllOk false
      "https://instagram.com/p/A").ackState = .edited (failEditText e) :=
  C3_ack_terminal 8 envAllOk "https://instagram.com/p/A"
    "https://instagram.com/p/A" (by decide) rfl rfl rfl rfl

/-- C6: on the size-rejection branch (fetched artifact larger than the
ceiling) the handler passes to `channel.send` a message stating the
limit was exceeded that ends with the original URL, never attempts the
attachment send, never attempts to delete the triggering message, and
— when the rejection send, the acknowledgment, and its deletion all
succeed — finishes with the acknowledgment deleted.  The branch is
terminal: no further delivery action occurs. -/
theorem C6_size_rejection (maxMB : Nat) (env : Env) (content url : String)
    (art : Artifact) (hm : findLink content = some url)
    (hfetch : env.fetch = .ok art) (hsz : MAX_BYTES maxMB < art.size) :
    rejectText maxMB url ∈ (on_message maxMB env false content).sends ∧
    (∃ a, rejectText maxMB url = a ++ url) ∧
    (on_message maxMB env false content).origDeleteAttempted = false ∧
    (on_message maxMB env false content).sendAttempted = false ∧
    (env.rejectSend.isOk = true → env.ackSend.isOk = true →
      env.ackDeleteReject.isOk = true →
      (on_message maxMB env false content).ackState = .deleted) := by
  have hsuffix : ∃ a : String, rejectText maxMB url = a ++ url := ⟨_, rfl⟩
  simp only [on_message, hm, hfetch, processBody, rejectBranch, afterSend,
    ackCleanup, handleFailure, safe_send_file, tooLargeError, hsz, if_true]
  repeat' split
  all_goals simp_all [Res.isOk, Nat.not_le, decide_eq_false_iff_not]

/-- Witness for C6: a 20 MiB artifact against the default 8 MB ceiling,
with every platform call succeeding. -/
theorem C6_size_rejection_witness :
    rejectText 8 "https://instagram.com/p/A" ∈
      (on_message 8 envBig false "https://instagram.com/p/A").sends ∧
    (∃ a, rejectText 8 "https://instagram.com/p/A" =
      a ++ "https://instagram.com/p/A") ∧
    (on_message 8 envBig false
      "https://instagram.com/p/A").origDeleteAttempted = false ∧
    (on_message 8 envBig false
      "https://instagram.com/p/A").sendAttempted = false ∧
    (Res.isOk envBig.rejectSend = true → Res.isOk envBig.ackSend = true →
      Res.isOk envBig.ackDeleteReject = true →
      (on_message 8 envBig false
        "https://instagram.com/p/A").ackState = .deleted) :=
  C6_size_rejection 8 envBig "https://instagram.com/p/A"
    "https://instagram.com/p/A" ⟨"media.mp4", 20 * 1024 * 1024⟩
    (by decide) rfl (by decide)

/-- C7: on the fetch-failure branch the handler never attempts the
attachment send nor the deletion of the triggering message; if an
acknowledgment exists it passes to `ack.edit` exactly the failure
notice ending with the failure cause, and otherwise it passes to
`channel.send` a failure notice ending with the cause.  The branch is
terminal. -/
theorem C7_fetch_failure (maxMB : Nat) (env : Env) (content url : String)
    (e : Exc) (hm : findLink content = some url)
    (hfetch : env.fetch = .err e) :
    (on_message maxMB env false content).origDeleteAttempted = false ∧
    (on_message maxMB env false content).sendAttempted = false ∧
    (∃ a, failEditText e = a ++ e.message) ∧
    (∃ a, failSendText e = a ++ e.message) ∧
    (env.ackSend.isOk = true →
      (on_message maxMB env false content).ackEditText =
        some (failEditText e)) ∧
    (env.ackSend.isOk = false →
      failSendText e ∈ (on_message maxMB env false content).sends) := by
  have h1 : ∃ a : String, failEditText e = a ++ e.message := ⟨_, rfl⟩
  have h2 : ∃ a : String, failSendText e = a ++ e.message := ⟨_, rfl⟩
  simp only [on_message, hm, processBody, rejectBranch, afterSend,
    ackCleanup, handleFailure, safe_send_file]
  repeat' split
  all_goals simp_all [Res.isOk]

/-- Witness for C7: a failing fetch with a live acknowledgment. -/
theorem C7_fetch_failure_witness :
    (on_message 8 envFetchFail false
      "https://instagram.com/p/A").origDeleteAttempted = false ∧
    (on_message 8 envFetchFail false
      "https://instagram.com/p/A").sendAttempted = false ∧
    (∃ a, failEditText (.other "boom") = a ++ (Exc.other "boom").message) ∧
    (∃ a, failSendText (.other "boom") = a ++ (Exc.other "boom").message) ∧
    (Res.isOk envFetchFail.ackSend = true →
      (on_message 8 envFetchFail false
        "https://instagram.com/p/A").ackEditText =
        some (failEditText (.other "boom"))) ∧
    (Res.isOk envFetchFail.ackSend = false →
      failSendText (.other "boom") ∈
        (on_message 8 envFetchFail false
          "https://instagram.com/p/A").sends) :=
  C7_fetch_failure 8 envFetchFail "https://instagram.com/p/A"
    "https://instagram.com/p/A" (.other "boom") (by decide) rfl

/-- C9: when the attachment send succeeded but deleting the original
message is refused with the platform's forbidden error, the handler
passes the Manage-Messages permission request to `channel.send`, the
original message is not deleted (though its deletion was attempted),
and the refusal is not fatal: if the permission-request send succeeds,
no exception escapes and (with a live acknowledgment whose deletion
succeeds) processing still ends with the acknowledgment deleted. -/
theorem C9_forbidden_delete (maxMB : Nat) (env : Env)
    (content url m : String) (art : Artifact)
    (hm : findLink content = some url) (hfetch : env.fetch = .ok art)
    (hsz : art.size ≤ MAX_BYTES maxMB)
    (hsend : env.fileSend.isOk = true)
    (hdel : env.origDelete = .err (.forbidden m)) :
    permText ∈ (on_message maxMB env false content).sends ∧
    (on_message maxMB env false content).origDeleted = false ∧
    (on_message maxMB env false content).origDeleteAttempted = true ∧
    (env.permSend.isOk = true →
      (on_message maxMB env false content).escaped = none ∧
      (env.ackSend.isOk = true → env.ackDeleteDone.isOk = true →
        (on_message maxMB env false content).ackState = .deleted)) := by
  simp only [on_message, hm, hfetch, processBody, rejectBranch, afterSend,
    ackCleanup, handleFailure, safe_send_file]
  rw [if_neg (by omega : ¬ MAX_BYTES maxMB < art.size)]
  repeat' split
  all_goals simp_all [Res.isOk]

/-- Witness for C9: forbidden deletion with every other call
succeeding. -/
theorem C9_forbidden_delete_witness :
    permText ∈
      (on_message 8 envForbidden false "https://instagram.com/p/A").sends ∧
    (on_message 8 envForbidden false
      "https://instagram.com/p/A").origDeleted = false ∧
    (on_message 8 envForbidden false
      "https://instagram.com/p/A").origDeleteAttempted = true ∧
    (Res.isOk envForbidden.permSend = true →
      (on_message 8 envForbidden false
        "https://instagram.com/p/A").escaped = none ∧
      (Res.isOk envForbidden.ackSend = true →
        Res.isOk envForbidden.ackDeleteDone = true →
        (on_message 8 envForbidden false
          "https://instagram.com/p/A").ackState = .deleted)) :=
  C9_forbidden_delete 8 envForbidden "https://instagram.com/p/A"
    "https://instagram.com/p/A" "Missing Permissions"
    ⟨"media.mp4", 5 * 1024 * 1024⟩ (by decide) rfl (by decide) rfl rfl

end InstaMirror
